import Mathlib

/-!
Shallow embedding of the `jakelime/pareto-plots` repository
(`src/pareto/utils.py` and `src/main.py`) and proofs about it.

Modelling conventions:
* Python/NumPy floats are modelled as `ℚ` (all arithmetic in the program is
  elementary: `+ - * /`), NumPy `.astype(int)` as truncation toward zero.
* The process-wide random sources are made explicit: the shuffled cartesian
  product (for `random.shuffle`), the list of target rates (for
  `random.choices`) and the list of Pareto samples (for `np.random.pareto`)
  are passed as arguments.
* The pandas data frame is a `List Row`; column assignments become row fields.
-/

/-- Prefix vocabulary (the `prefixes` list of
`generate_toy_story_machine_names` in `src/pareto/utils.py`, 75 tokens). -/
def prefixes : List String :=
  ["Buzz", "Woody", "Jessie", "Rex", "Hamm", "Slinky", "BoPeep", "Alien",
   "Zurg", "Lotso", "Star", "Pizza", "Claw", "Bullseye", "Andy", "Infini",
   "Beyond", "RC", "Tricera", "Bucket", "GreenArmy", "Dolly", "Trixie",
   "PotatoHead", "Forky", "Ducky", "Bunny", "Caboom", "Gabby", "Peas",
   "Wheezy", "Barbie", "Ken", "Etch", "Rocky", "CombatCarl", "Janie",
   "Sharky", "Chuckles", "Twitch", "Stretch", "Chunk", "Sparks",
   "RoadRunner", "Linguini", "Sid", "Sunnyside", "AlToy", "ToyBarn", "Pawn",
   "Rocket", "SpaceRanger", "Sheriff", "Deputy", "WildWest", "Playhouse",
   "Cloud", "Plasma", "Laser", "Power", "Friend", "Loyal", "Playtime",
   "Adventure", "Destiny", "Mission", "Dinoco", "Sky", "Reach", "Garage",
   "Attic", "Dumpster", "TriCounty", "Ceiling", "Rebel"]

/-- Suffix vocabulary (the `suffixes` list of
`generate_toy_story_machine_names` in `src/pareto/utils.py`, 73 tokens). -/
def suffixes : List String :=
  ["Core", "Server", "Node", "Unit", "Engine", "Bot", "Link", "System",
   "Hub", "Module", "Command", "Bay", "Delta", "Forge", "Relay", "Matrix",
   "Guard", "Pilot", "Transit", "Compute", "Box", "Cluster", "Cloud",
   "Stack", "Layer", "Proxy", "Gateway", "Vault", "Array", "Cache",
   "Stream", "Beacon", "Conduit", "Frame", "Host", "Grid", "Fabric",
   "Zone", "Cell", "Router", "Switch", "Worker", "Handler", "Agent",
   "Controller", "Manager", "Monitor", "Supervisor", "Director", "Keeper",
   "Logger", "Scanner", "Indexer", "Pylon", "Sentinel", "Nexus", "Orbit",
   "Vector", "Chronos", "Atlas", "Titan", "Nova", "Xfer", "Port", "Pipe",
   "Data", "Wire", "Beam", "Drive", "Logic", "Output", "Input", "Terminal"]

/-- Embeds `all_combinations = list(itertools.product(prefixes, suffixes))`
from `src/pareto/utils.py` (same enumeration order). -/
def all_combinations : List (String × String) := prefixes ×ˢ suffixes

/-- Embeds `generate_toy_story_machine_names` from `src/pareto/utils.py`:
shuffle the cartesian product, take the first `count` pairs, join each as
`f"{prefix}-{suffix}"`.  The effect of `random.shuffle` is made explicit:
the shuffled pool is an argument, required in the theorems below to be a
permutation of `all_combinations`. -/
def generate_toy_story_machine_names (shuffled : List (String × String))
    (count : ℕ) : List String :=
  (shuffled.take count).map (fun ps => ps.1 ++ "-" ++ ps.2)

/-- Embeds the placeholder `generate_toy_story_machine_names` defined at the
top of `src/main.py`: `[f"Machine_{i + 1}" for i in range(count)]`. -/
def generate_toy_story_machine_names_main (count : ℕ) : List String :=
  (List.range count).map (fun i => "Machine_" ++ toString (i + 1))

/-- Embeds `names = generate_toy_story_machine_names(count=100)` in
`src/main.py` (which calls the local placeholder, not the utils function). -/
def names_main : List String := generate_toy_story_machine_names_main 100

/-- Embeds `df["target_util_rate"] = random.choices([0.3, 0.4, 0.5], k=...)`:
the fixed discrete choice set of `src/main.py`. -/
def target_rate_choices : List ℚ := [3/10, 2/5, 1/2]

/-- Configuration constants of the utilization pipeline in `src/main.py`:
`total_hours_year`, `min_idle_hours`, `scale_factor`.  (The Pareto shape
parameter `shape_param = 3.7` only parameterizes the distribution of the
samples, which are explicit inputs here, so it does not appear.) -/
structure Config where
  total_hours : ℤ
  min_idle_hours : ℤ
  scale_factor : ℚ

/-- Constants hard-coded in `src/main.py`: `total_hours_year = 8760`,
`min_idle_hours = 50`, `scale_factor = 8000`. -/
def mainConfig : Config :=
  { total_hours := 8760, min_idle_hours := 50, scale_factor := 8000 }

/-- NumPy `.astype(int)` on a float: truncation toward zero. -/
def truncToZero (q : ℚ) : ℤ := if 0 ≤ q then ⌊q⌋ else ⌈q⌉

/-- Embeds one entry of
`(np.random.pareto(shape_param, n) * scale_factor + min_idle_hours).astype(int)`
for a given Pareto sample. -/
def idleHours (cfg : Config) (sample : ℚ) : ℤ :=
  truncToZero (sample * cfg.scale_factor + (cfg.min_idle_hours : ℚ))

/-- One row of the data frame `df` built in `src/main.py`, with all the
columns assigned there. -/
structure Row where
  machine_name : String
  target_util_rate : ℚ
  total_hours_year : ℤ
  idle_hours_year : ℤ
  utilized_hours_year : ℤ
  utilization_rate : ℚ
  utilization_rate_normalized : ℚ
  under_utilized_rate_normalized : ℚ
  total_idle_pct : ℚ
deriving DecidableEq

/-- Builds one row of `df` from `src/main.py` lines 18-48:
`utilized_hours_year = (total - idle).clip(lower=0, upper=total)`,
`utilization_rate = utilized / total`,
`utilization_rate_normalized = utilization_rate / target_util_rate`,
`under_utilized_rate_normalized = 1 - utilization_rate_normalized`,
`total_idle_pct = idle_hours_year / total_idle_hours * 100`. -/
def mkRow (cfg : Config) (total_idle_hours : ℤ) (name : String) (target : ℚ)
    (sample : ℚ) : Row :=
  let idle := idleHours cfg sample
  let utilized := min (max (cfg.total_hours - idle) 0) cfg.total_hours
  let rate : ℚ := (utilized : ℚ) / (cfg.total_hours : ℚ)
  let normRate : ℚ := rate / target
  { machine_name := name
    target_util_rate := target
    total_hours_year := cfg.total_hours
    idle_hours_year := idle
    utilized_hours_year := utilized
    utilization_rate := rate
    utilization_rate_normalized := normRate
    under_utilized_rate_normalized := 1 - normRate
    total_idle_pct := (idle : ℚ) / (total_idle_hours : ℚ) * 100 }

/-- Walks the three equal-length columns (names, target rates, Pareto
samples) in parallel, building one `Row` per entity, as the pandas column
assignments of `src/main.py` do. -/
def rowsAux (cfg : Config) (total_idle_hours : ℤ) :
    List String → List ℚ → List ℚ → List Row
  | n :: ns, t :: ts, s :: ss =>
      mkRow cfg total_idle_hours n t s :: rowsAux cfg total_idle_hours ns ts ss
  | _, _, _ => []

/-- Embeds the table-building part of `src/main.py` (everything through
`df["total_idle_pct"]`): `total_idle_hours = df["idle_hours_year"].sum()` is
the sum of the idle-hours column, used as the divisor of every row's
`total_idle_pct`. -/
def buildTable (cfg : Config) (names : List String) (targets samples : List ℚ) :
    List Row :=
  rowsAux cfg ((samples.map (idleHours cfg)).sum) names targets samples

/-- Embeds `df.sort_values(by=..., ascending=False)` for a numeric key. -/
def sortRowsDescBy (f : Row → ℚ) (t : List Row) : List Row :=
  t.mergeSort (fun a b => decide (f b ≤ f a))

/-- Embeds pandas `cumsum` with running accumulator `acc`. -/
def cumsumFrom (acc : ℚ) : List ℚ → List ℚ
  | [] => []
  | x :: xs => (acc + x) :: cumsumFrom (acc + x) xs

/-- Embeds `df_pareto["cumulative_sum"] = df_pareto["total_idle_pct"].cumsum()`. -/
def cumsum (l : List ℚ) : List ℚ := cumsumFrom 0 l

/-- Embeds the Pareto derived view of `src/main.py` lines 74-78: sort by
`under_utilized_rate_normalized` descending, then
`cumulative_percent = cumulative_sum / total_sum * 100` where
`total_sum = df_pareto["total_idle_pct"].sum()`.  Returns the
`cumulative_percent` column. -/
def cumulative_percent (t : List Row) : List ℚ :=
  let df_pareto := sortRowsDescBy (fun r => r.under_utilized_rate_normalized) t
  let pcts := df_pareto.map (fun r => r.total_idle_pct)
  let total_sum := pcts.sum
  (cumsum pcts).map (fun c => c / total_sum * 100)

/-- Embeds `grid_size = 10` from `src/main.py`. -/
def grid_size : ℕ := 10

/-- The message of the `ValueError` raised in `src/main.py`:
`f"Number of machines must be {grid_size * grid_size} for a square grid."`. -/
def heatmap_error_message : String :=
  "Number of machines must be " ++ toString (grid_size * grid_size) ++
    " for a square grid."

/-- The `utilization_rate_normalized` column of
`df_heatmap = df_raw.sort_values(by="utilization_rate_normalized", ascending=False)`. -/
def heatmapSortedVals (t : List Row) : List ℚ :=
  (sortRowsDescBy (fun r => r.utilization_rate_normalized) t).map
    (fun r => r.utilization_rate_normalized)

/-- Embeds NumPy `.values.reshape(grid_size, grid_size)` (row-major):
cut the list into consecutive chunks of length `n`. -/
def reshapeRows (n : ℕ) (l : List ℚ) : List (List ℚ) :=
  if h : l = [] ∨ n = 0 then []
  else l.take n :: reshapeRows n (l.drop n)
termination_by l.length
decreasing_by
  rcases not_or.mp h with ⟨hl, hn⟩
  have h1 : 0 < l.length := List.length_pos.mpr hl
  have h2 : 0 < n := Nat.pos_of_ne_zero hn
  simp only [List.length_drop]
  omega

/-- Embeds the heatmap stage of `src/main.py` lines 111-121: sort
descending by `utilization_rate_normalized`, raise `ValueError` when the
row count differs from `grid_size * grid_size`, otherwise reshape the
sorted values into a row-major `grid_size × grid_size` grid. -/
def heatmapView (t : List Row) : Except String (List (List ℚ)) :=
  if (sortRowsDescBy (fun r => r.utilization_rate_normalized) t).length ≠
      grid_size * grid_size then
    Except.error heatmap_error_message
  else
    Except.ok (reshapeRows grid_size (heatmapSortedVals t))

/-- Embeds the whole post-synthesis run of `src/main.py`: build `df`,
derive the Pareto cumulative series, then the heatmap grid.  The single
`raise` statement of the source (the grid-size check) is the only error
path. -/
def runPipeline (cfg : Config) (names : List String)
    (targets samples : List ℚ) :
    Except String (List Row × List ℚ × List (List ℚ)) :=
  let df := buildTable cfg names targets samples
  let cp := cumulative_percent df
  match heatmapView df with
  | Except.error e => Except.error e
  | Except.ok g => Except.ok (df, cp, g)

/-! Helper lemmas about the embedding. -/

lemma le_truncToZero (m : ℤ) (q : ℚ) (h : (m : ℚ) ≤ q) : m ≤ truncToZero q := by
  unfold truncToZero
  split
  · exact Int.le_floor.mpr h
  · exact_mod_cast le_trans h (Int.le_ceil q)

lemma min_idle_le_idleHours (cfg : Config) (s : ℚ) (hsc : 0 ≤ cfg.scale_factor)
    (hs : 0 ≤ s) : cfg.min_idle_hours ≤ idleHours cfg s := by
  apply le_truncToZero
  have hm : 0 ≤ s * cfg.scale_factor := mul_nonneg hs hsc
  linarith

lemma rowsAux_length (cfg : Config) (T : ℤ) (ns : List String) :
    ∀ ts ss : List ℚ, ns.length = ts.length → ns.length = ss.length →
      (rowsAux cfg T ns ts ss).length = ns.length := by
  induction ns with
  | nil => intro ts ss _ _; cases ts <;> cases ss <;> simp [rowsAux]
  | cons n ns ih =>
    intro ts ss ht hs
    cases ts with
    | nil => simp at ht
    | cons t ts =>
      cases ss with
      | nil => simp at hs
      | cons s ss =>
        simp only [rowsAux, List.length_cons]
        rw [ih ts ss (by simpa using ht) (by simpa using hs)]

lemma mem_rowsAux (cfg : Config) (T : ℤ) (ns : List String) :
    ∀ (ts ss : List ℚ) (r : Row), r ∈ rowsAux cfg T ns ts ss →
      ∃ n t s, t ∈ ts ∧ s ∈ ss ∧ r = mkRow cfg T n t s := by
  induction ns with
  | nil => intro ts ss r hr; cases ts <;> cases ss <;> simp [rowsAux] at hr
  | cons n ns ih =>
    intro ts ss r hr
    cases ts with
    | nil => simp [rowsAux] at hr
    | cons t ts =>
      cases ss with
      | nil => simp [rowsAux] at hr
      | cons s ss =>
        simp only [rowsAux] at hr
        rcases List.mem_cons.mp hr with h | h
        · exact ⟨n, t, s, List.mem_cons_self t ts, List.mem_cons_self s ss, h⟩
        · obtain ⟨n', t', s', ht', hs', he⟩ := ih ts ss r h
          exact ⟨n', t', s', List.mem_cons_of_mem _ ht',
            List.mem_cons_of_mem _ hs', he⟩

lemma rowsAux_map_idle (cfg : Config) (T : ℤ) (ns : List String) :
    ∀ ts ss : List ℚ, ns.length = ts.length → ns.length = ss.length →
      (rowsAux cfg T ns ts ss).map (fun r => r.idle_hours_year) =
        ss.map (idleHours cfg) := by
  induction ns with
  | nil =>
    intro ts ss _ hs
    cases ts <;> cases ss <;> simp_all [rowsAux]
  | cons n ns ih =>
    intro ts ss ht hs
    cases ts with
    | nil => simp at ht
    | cons t ts =>
      cases ss with
      | nil => simp at hs
      | cons s ss =>
        simp only [rowsAux, List.map_cons]
        rw [ih ts ss (by simpa using ht) (by simpa using hs)]
        rfl

lemma rowsAux_map_pct (cfg : Config) (T : ℤ) (ns : List String) :
    ∀ ts ss : List ℚ, ns.length = ts.length → ns.length = ss.length →
      (rowsAux cfg T ns ts ss).map (fun r => r.total_idle_pct) =
        ss.map (fun s => ((idleHours cfg s : ℚ) / (T : ℚ)) * 100) := by
  induction ns with
  | nil =>
    intro ts ss _ hs
    cases ts <;> cases ss <;> simp_all [rowsAux]
  | cons n ns ih =>
    intro ts ss ht hs
    cases ts with
    | nil => simp at ht
    | cons t ts =>
      cases ss with
      | nil => simp at hs
      | cons s ss =>
        simp only [rowsAux, List.map_cons]
        rw [ih ts ss (by simpa using ht) (by simpa using hs)]
        rfl

lemma sortRowsDescBy_perm (f : Row → ℚ) (t : List Row) :
    List.Perm (sortRowsDescBy f t) t :=
  List.mergeSort_perm t _

lemma sortRowsDescBy_pairwise (f : Row → ℚ) (t : List Row) :
    (sortRowsDescBy f t).Pairwise (fun a b => f b ≤ f a) := by
  have htrans : ∀ a b c : Row, (fun a b => decide (f b ≤ f a)) a b →
      (fun a b => decide (f b ≤ f a)) b c →
      (fun a b => decide (f b ≤ f a)) a c := by
    intro a b c h1 h2
    simp only [decide_eq_true_eq] at *
    exact le_trans h2 h1
  have htotal : ∀ a b : Row, ((fun a b => decide (f b ≤ f a)) a b ||
      (fun a b => decide (f b ≤ f a)) b a) = true := by
    intro a b
    simpa using le_total (f b) (f a)
  have h := List.sorted_mergeSort htrans htotal t
  refine h.imp ?_
  intro a b hab
  simpa using hab

lemma cumsumFrom_chain (l : List ℚ) :
    ∀ acc : ℚ, (∀ x ∈ l, 0 ≤ x) → List.Chain' (· ≤ ·) (cumsumFrom acc l) := by
  induction l with
  | nil => intro acc _; simp [cumsumFrom]
  | cons x xs ih =>
    intro acc hnn
    rw [cumsumFrom]
    apply List.chain'_cons'.mpr
    refine ⟨?_, ih (acc + x) (fun z hz => hnn z (List.mem_cons_of_mem _ hz))⟩
    intro b hb
    cases xs with
    | nil => simp [cumsumFrom] at hb
    | cons y ys =>
      rw [cumsumFrom] at hb
      simp only [List.head?_cons, Option.mem_def, Option.some.injEq] at hb
      have hy : 0 ≤ y := hnn y (List.mem_cons_of_mem _ (List.mem_cons_self y ys))
      rw [← hb]
      linarith

lemma cumsumFrom_getLast (l : List ℚ) :
    ∀ acc : ℚ, l ≠ [] → (cumsumFrom acc l).getLast? = some (acc + l.sum) := by
  induction l with
  | nil => intro acc h; exact absurd rfl h
  | cons x xs ih =>
    intro acc _
    rw [cumsumFrom]
    cases xs with
    | nil => simp [cumsumFrom]
    | cons y ys =>
      rw [cumsumFrom, List.getLast?_cons_cons, ← cumsumFrom]
      have h := ih (acc + x) (List.cons_ne_nil y ys)
      rw [h]
      congr 1
      simp only [List.sum_cons]
      ring

lemma flatten_reshapeRows (n : ℕ) (hn : n ≠ 0) (l : List ℚ) :
    (reshapeRows n l).flatten = l := by
  rw [reshapeRows]
  split
  · next h =>
    rcases h with h | h
    · simp [h]
    · exact absurd h hn
  · next h =>
    rw [List.flatten_cons, flatten_reshapeRows n hn (l.drop n),
      List.take_append_drop]
termination_by l.length
decreasing_by
  rename_i h
  rcases not_or.mp h with ⟨hl, hn'⟩
  have h1 : 0 < l.length := List.length_pos.mpr hl
  have h2 : 0 < n := Nat.pos_of_ne_zero hn'
  simp only [List.length_drop]
  omega

lemma reshapeRows_length (n : ℕ) (hn : n ≠ 0) (k : ℕ) :
    ∀ l : List ℚ, l.length = n * k → (reshapeRows n l).length = k := by
  induction k with
  | zero =>
    intro l hl
    have hnil : l = [] := List.length_eq_zero.mp (by simpa using hl)
    subst hnil
    rw [reshapeRows]
    simp
  | succ k ih =>
    intro l hl
    have hl' : l.length = n * k + n := by rw [hl, Nat.mul_succ]
    rw [reshapeRows]
    split
    · next h =>
      rcases h with h | h
      · subst h
        simp only [List.length_nil] at hl'
        have := Nat.pos_of_ne_zero hn
        omega
      · exact absurd h hn
    · next h =>
      simp only [List.length_cons]
      rw [ih (l.drop n) (by simp only [List.length_drop]; omega)]

lemma mem_reshapeRows_length (n : ℕ) (hn : n ≠ 0) (k : ℕ) :
    ∀ l : List ℚ, l.length = n * k →
      ∀ row ∈ reshapeRows n l, row.length = n := by
  induction k with
  | zero =>
    intro l hl row hrow
    have hnil : l = [] := List.length_eq_zero.mp (by simpa using hl)
    subst hnil
    rw [reshapeRows] at hrow
    simp at hrow
  | succ k ih =>
    intro l hl row hrow
    have hl' : l.length = n * k + n := by rw [hl, Nat.mul_succ]
    rw [reshapeRows] at hrow
    split at hrow
    · simp at hrow
    · rcases List.mem_cons.mp hrow with h1 | h1
      · subst h1
        rw [List.length_take]
        omega
      · exact ih (l.drop n) (by simp only [List.length_drop]; omega) row h1

lemma data_join (p s : String) :
    (p ++ "-" ++ s).data = p.data ++ '-' :: s.data := by
  simp [String.data_append]

lemma sep_split_inj (a₁ : List Char) : ∀ a₂ b₁ b₂ : List Char,
    '-' ∉ a₁ → '-' ∉ a₂ → a₁ ++ '-' :: b₁ = a₂ ++ '-' :: b₂ →
    a₁ = a₂ ∧ b₁ = b₂ := by
  induction a₁ with
  | nil =>
    intro a₂ b₁ b₂ _ h2 h
    cases a₂ with
    | nil => simpa using h
    | cons d a₂ =>
      simp only [List.nil_append, List.cons_append, List.cons.injEq] at h
      exact absurd (by rw [h.1]; exact List.mem_cons_self d a₂) h2
  | cons c a₁ ih =>
    intro a₂ b₁ b₂ h1 h2 h
    cases a₂ with
    | nil =>
      simp only [List.cons_append, List.nil_append, List.cons.injEq] at h
      exact absurd (by rw [← h.1]; exact List.mem_cons_self c a₁) h1
    | cons d a₂ =>
      simp only [List.cons_append, List.cons.injEq] at h
      obtain ⟨hc, ht⟩ := h
      have hr := ih a₂ b₁ b₂ (fun hm => h1 (List.mem_cons_of_mem _ hm))
        (fun hm => h2 (List.mem_cons_of_mem _ hm)) ht
      exact ⟨by rw [hc, hr.1], hr.2⟩

lemma join_inj (p₁ s₁ p₂ s₂ : String) (h1 : '-' ∉ p₁.data)
    (h2 : '-' ∉ p₂.data) (h : p₁ ++ "-" ++ s₁ = p₂ ++ "-" ++ s₂) :
    p₁ = p₂ ∧ s₁ = s₂ := by
  have hd : p₁.data ++ '-' :: s₁.data = p₂.data ++ '-' :: s₂.data := by
    rw [← data_join, ← data_join, h]
  obtain ⟨hp, hs⟩ := sep_split_inj _ _ _ _ h1 h2 hd
  exact ⟨String.ext hp, String.ext hs⟩

lemma prefixes_nodup : prefixes.Nodup := by decide

lemma suffixes_nodup : suffixes.Nodup := by decide

lemma prefixes_no_dash : ∀ p ∈ prefixes, '-' ∉ p.data := by decide

lemma all_combinations_nodup : all_combinations.Nodup :=
  prefixes_nodup.product suffixes_nodup

lemma truncToZero_intCast (m : ℤ) : truncToZero (m : ℚ) = m := by
  unfold truncToZero
  split
  · exact Int.floor_intCast m
  · exact Int.ceil_intCast m

lemma idleHours_scale_zero (cfg : Config) (s : ℚ)
    (h : cfg.scale_factor = 0) : idleHours cfg s = cfg.min_idle_hours := by
  unfold idleHours
  rw [h, mul_zero, zero_add, truncToZero_intCast]

lemma idleHours_sample_zero (cfg : Config) :
    idleHours cfg 0 = cfg.min_idle_hours := by
  unfold idleHours
  rw [zero_mul, zero_add, truncToZero_intCast]

lemma idleHours_main_one : idleHours mainConfig 1 = 8050 := by
  have h : (1 : ℚ) * (8000 : ℚ) + ((50 : ℤ) : ℚ) = ((8050 : ℤ) : ℚ) := by
    norm_num
  simp only [idleHours, mainConfig]
  rw [h, truncToZero_intCast]

lemma sum_map_div_mul (l : List ℤ) (T : ℤ) :
    (l.map (fun z : ℤ => ((z : ℚ) / (T : ℚ)) * 100)).sum =
      ((l.sum : ℚ) / (T : ℚ)) * 100 := by
  induction l with
  | nil => simp
  | cons x xs ih =>
    rw [List.map_cons, List.sum_cons, ih, List.sum_cons]
    push_cast
    ring

lemma buildTable_pct_sum (cfg : Config) (names : List String)
    (targets samples : List ℚ) (h1 : names.length = targets.length)
    (h2 : names.length = samples.length)
    (hS : (samples.map (idleHours cfg)).sum ≠ 0) :
    ((buildTable cfg names targets samples).map
      (fun r => r.total_idle_pct)).sum = 100 := by
  unfold buildTable
  rw [rowsAux_map_pct cfg _ names targets samples h1 h2]
  have hmap : samples.map (fun s => ((idleHours cfg s : ℚ) /
        (((samples.map (idleHours cfg)).sum : ℤ) : ℚ)) * 100) =
      (samples.map (idleHours cfg)).map (fun z : ℤ => ((z : ℚ) /
        (((samples.map (idleHours cfg)).sum : ℤ) : ℚ)) * 100) := by
    rw [List.map_map]
    rfl
  rw [hmap, sum_map_div_mul]
  rw [div_self (Int.cast_ne_zero.mpr hS), one_mul]

lemma shuffled_take_nodup (shuffled : List (String × String)) (count : ℕ)
    (hperm : List.Perm shuffled all_combinations) :
    (shuffled.take count).Nodup :=
  List.Nodup.sublist (List.take_sublist count shuffled)
    (hperm.nodup_iff.mpr all_combinations_nodup)

lemma take_mem_vocab (shuffled : List (String × String)) (count : ℕ)
    (hperm : List.Perm shuffled all_combinations) :
    ∀ ps ∈ shuffled.take count, ps.1 ∈ prefixes ∧ ps.2 ∈ suffixes := by
  intro ps hps
  have hm : ps ∈ all_combinations :=
    hperm.mem_iff.mp (List.take_subset count shuffled hps)
  obtain ⟨p, s⟩ := ps
  exact List.mem_product.mp hm

lemma gen_names_mem_vocab (shuffled : List (String × String)) (count : ℕ)
    (hperm : List.Perm shuffled all_combinations) :
    ∀ name ∈ generate_toy_story_machine_names shuffled count,
      ∃ p ∈ prefixes, ∃ s ∈ suffixes, name = p ++ "-" ++ s := by
  intro name hname
  obtain ⟨ps, hps, rfl⟩ := List.mem_map.mp hname
  obtain ⟨hp, hs⟩ := take_mem_vocab shuffled count hperm ps hps
  exact ⟨ps.1, hp, ps.2, hs, rfl⟩

lemma gen_names_nodup (shuffled : List (String × String)) (count : ℕ)
    (hperm : List.Perm shuffled all_combinations) :
    (generate_toy_story_machine_names shuffled count).Nodup := by
  apply List.Nodup.map_on ?_ (shuffled_take_nodup shuffled count hperm)
  intro x hx y hy hxy
  obtain ⟨hxp, _⟩ := take_mem_vocab shuffled count hperm x hx
  obtain ⟨hyp, _⟩ := take_mem_vocab shuffled count hperm y hy
  obtain ⟨h1, h2⟩ := join_inj x.1 x.2 y.1 y.2
    (prefixes_no_dash x.1 hxp) (prefixes_no_dash y.1 hyp) hxy
  exact Prod.ext h1 h2

/-- Claim C6: for every `count` with `0 ≤ count ≤ P*S` (the pool size),
the name generator returns exactly `count` pairwise-distinct names drawn
from the declared vocabularies, and for `count > P*S` it returns exactly
pool-size names without raising an error. -/
theorem generate_names_count_spec (shuffled : List (String × String))
    (count : ℕ) (hperm : List.Perm shuffled all_combinations) :
    (count ≤ prefixes.length * suffixes.length →
      (generate_toy_story_machine_names shuffled count).length = count ∧
      (generate_toy_story_machine_names shuffled count).Nodup ∧
      ∀ name ∈ generate_toy_story_machine_names shuffled count,
        ∃ p ∈ prefixes, ∃ s ∈ suffixes, name = p ++ "-" ++ s) ∧
    (prefixes.length * suffixes.length < count →
      (generate_toy_story_machine_names shuffled count).length =
        prefixes.length * suffixes.length) := by
  have hlen : shuffled.length = prefixes.length * suffixes.length := by
    rw [hperm.length_eq]
    exact List.length_product prefixes suffixes
  have hglen : (generate_toy_story_machine_names shuffled count).length =
      min count shuffled.length := by
    unfold generate_toy_story_machine_names
    rw [List.length_map, List.length_take]
  constructor
  · intro hcount
    refine ⟨?_, gen_names_nodup shuffled count hperm,
      gen_names_mem_vocab shuffled count hperm⟩
    rw [hglen, hlen]
    omega
  · intro hcount
    rw [hglen, hlen]
    omega

/-- Witness for C6: at the identity shuffle and count 5 the generator
returns exactly 5 pairwise-distinct names. -/
theorem generate_names_count_spec_witness :
    (generate_toy_story_machine_names all_combinations 5).length = 5 ∧
    (generate_toy_story_machine_names all_combinations 5).Nodup :=
  ⟨((generate_names_count_spec all_combinations 5 (List.Perm.refl _)).1
      (by decide)).1,
   ((generate_names_count_spec all_combinations 5 (List.Perm.refl _)).1
      (by decide)).2.1⟩

/-- Counterexample for C2: the names actually used by the pipeline in
`src/main.py` come from the local placeholder generator, and its first name
`"Machine_1"` is not the join of any prefix and suffix of the declared
vocabularies, so the claim is false of the code as it runs. -/
theorem pipeline_names_not_vocab_joins :
    ¬ ∀ name ∈ names_main, ∃ p ∈ prefixes, ∃ s ∈ suffixes,
      name = p ++ "-" ++ s := by
  intro h
  have hm : "Machine_1" ∈ names_main := by decide
  obtain ⟨p, hp, s, hs, he⟩ := h _ hm
  have hd : '-' ∈ (p ++ "-" ++ s).data := by
    rw [data_join]
    exact List.mem_append.mpr (Or.inr (List.mem_cons_self _ _))
  rw [← he] at hd
  exact absurd hd (by decide)

/-- Claim C2 (amended): the pipeline of `src/main.py` uses the placeholder
names `Machine_1 .. Machine_100`, which are pairwise distinct but are not
prefix+suffix joins; the repository's `generate_toy_story_machine_names`
in `src/pareto/utils.py` (not called by `src/main.py`) does form every
returned name by joining one prefix and one suffix token with `"-"`, the
underlying pairs being drawn without replacement from the cartesian
product. -/
theorem names_contract_amended (shuffled : List (String × String))
    (count : ℕ) (hperm : List.Perm shuffled all_combinations) :
    names_main.Nodup ∧
    (shuffled.take count).Nodup ∧
    ∀ name ∈ generate_toy_story_machine_names shuffled count,
      ∃ p ∈ prefixes, ∃ s ∈ suffixes, name = p ++ "-" ++ s :=
  ⟨by decide, shuffled_take_nodup shuffled count hperm,
   gen_names_mem_vocab shuffled count hperm⟩

/-- Witness for the amended C2 at the identity shuffle and count 2. -/
theorem names_contract_amended_witness :
    names_main.Nodup ∧ (all_combinations.take 2).Nodup :=
  ⟨(names_contract_amended all_combinations 2 (List.Perm.refl _)).1,
   (names_contract_amended all_combinations 2 (List.Perm.refl _)).2.1⟩

/-- Claim C7: every synthesized row has `idle_hours` at least the configured
idle floor, and `utilized_hours` between 0 and `total_hours` inclusive after
clamping. -/
theorem synthesized_rows_bounds (cfg : Config) (names : List String)
    (targets samples : List ℚ) (hsc : 0 ≤ cfg.scale_factor)
    (hth : 0 ≤ cfg.total_hours) (hsamp : ∀ s ∈ samples, 0 ≤ s) :
    ∀ r ∈ buildTable cfg names targets samples,
      cfg.min_idle_hours ≤ r.idle_hours_year ∧
      0 ≤ r.utilized_hours_year ∧ r.utilized_hours_year ≤ cfg.total_hours := by
  intro r hr
  obtain ⟨n, t, s, _, hs, he⟩ :=
    mem_rowsAux cfg _ names targets samples r hr
  subst he
  refine ⟨min_idle_le_idleHours cfg s hsc (hsamp s hs), ?_, ?_⟩
  · exact le_min (le_max_right _ _) hth
  · exact min_le_right _ _

lemma singleton_zero_idle_sum :
    (([(0 : ℚ)].map (idleHours mainConfig)).sum : ℤ) = 50 := by
  simp [idleHours_sample_zero, mainConfig]

lemma buildTable_singleton :
    buildTable mainConfig ["A"] [1] [0] = [mkRow mainConfig 50 "A" 1 0] := by
  unfold buildTable
  rw [singleton_zero_idle_sum]
  rfl

/-- Witness for C7 at the one-row table with sample 0. -/
theorem synthesized_rows_bounds_witness :
    mainConfig.min_idle_hours ≤ (mkRow mainConfig 50 "A" 1 0).idle_hours_year ∧
    0 ≤ (mkRow mainConfig 50 "A" 1 0).utilized_hours_year ∧
    (mkRow mainConfig 50 "A" 1 0).utilized_hours_year ≤
      mainConfig.total_hours := by
  apply synthesized_rows_bounds mainConfig ["A"] [1] [0]
    (by norm_num [mainConfig]) (by norm_num [mainConfig]) (by simp)
  rw [buildTable_singleton]
  exact List.mem_cons_self _ _

/-- Configuration of the spec's end-to-end example: `count=4`,
`target_rate_choices={0.5}`, `total_hours=8760`, `idle_floor=50`,
`idle_scale=0` (instantiating the code's constants per the example). -/
def endToEndConfig : Config :=
  { total_hours := 8760, min_idle_hours := 50, scale_factor := 0 }

lemma endToEnd_idle_sum (samples : List ℚ) (hs : samples.length = 4) :
    (samples.map (idleHours endToEndConfig)).sum = 200 := by
  have hm : samples.map (idleHours endToEndConfig) =
      List.replicate samples.length (50 : ℤ) := by
    rw [← List.map_const']
    exact List.map_congr_left (fun s _ => idleHours_scale_zero _ s rfl)
  rw [hm, hs, List.sum_replicate]
  norm_num

/-- Claim C4: in the spec's end-to-end example (4 rows, all targets 0.5,
idle scale 0), every synthesized row has idle_hours exactly 50,
utilized_hours exactly 8710, utilization_rate 871/876 (≈0.99429),
normalized rate 871/438 (≈1.98858), under-utilization −433/438
(≈−0.98858), and idle_share_pct exactly 25. -/
theorem end_to_end_example (names : List String) (samples : List ℚ)
    (hn : names.length = 4) (hs : samples.length = 4) :
    ∀ r ∈ buildTable endToEndConfig names (List.replicate 4 (1/2)) samples,
      r.idle_hours_year = 50 ∧ r.utilized_hours_year = 8710 ∧
      r.utilization_rate = 871 / 876 ∧
      r.utilization_rate_normalized = 871 / 438 ∧
      r.under_utilized_rate_normalized = -(433 / 438) ∧
      r.total_idle_pct = 25 := by
  intro r hr
  unfold buildTable at hr
  rw [endToEnd_idle_sum samples hs] at hr
  obtain ⟨n, t, s, ht, _, he⟩ :=
    mem_rowsAux endToEndConfig 200 names _ samples r hr
  have ht2 : t = 1/2 := List.eq_of_mem_replicate ht
  subst he ht2
  have hi : idleHours endToEndConfig s = 50 := idleHours_scale_zero _ s rfl
  have hu : min (max (endToEndConfig.total_hours - (50 : ℤ)) 0)
      endToEndConfig.total_hours = 8710 := by decide
  simp only [mkRow]
  rw [hi, hu]
  refine ⟨rfl, rfl, ?_, ?_, ?_, ?_⟩ <;> norm_num [endToEndConfig]

/-- Witness for C4 at names A,B,C,D and Pareto samples 0,1,2,3. -/
theorem end_to_end_example_witness :
    (mkRow endToEndConfig 200 "A" (1/2) 0).idle_hours_year = 50 ∧
    (mkRow endToEndConfig 200 "A" (1/2) 0).utilized_hours_year = 8710 ∧
    (mkRow endToEndConfig 200 "A" (1/2) 0).utilization_rate = 871 / 876 ∧
    (mkRow endToEndConfig 200 "A" (1/2) 0).utilization_rate_normalized =
      871 / 438 ∧
    (mkRow endToEndConfig 200 "A" (1/2) 0).under_utilized_rate_normalized =
      -(433 / 438) ∧
    (mkRow endToEndConfig 200 "A" (1/2) 0).total_idle_pct = 25 := by
  apply end_to_end_example ["A", "B", "C", "D"] [0, 1, 2, 3] rfl rfl
  unfold buildTable
  rw [endToEnd_idle_sum [0, 1, 2, 3] rfl]
  show mkRow endToEndConfig 200 "A" (1/2) 0 ∈
    mkRow endToEndConfig 200 "A" (1/2) 0 :: rowsAux endToEndConfig 200
      ["B", "C", "D"] (List.replicate 3 (1/2)) [1, 2, 3]
  exact List.mem_cons_self _ _

/-- Claim C9: for a non-empty synthesized table whose global idle-hours sum
is nonzero, the idle_share_pct column sums to exactly 100 (exact in the
rational model, within floating-point tolerance in the program). -/
theorem idle_share_pct_sum_100 (cfg : Config) (names : List String)
    (targets samples : List ℚ) (hne : names ≠ [])
    (h1 : names.length = targets.length) (h2 : names.length = samples.length)
    (hS : (samples.map (idleHours cfg)).sum ≠ 0) :
    ((buildTable cfg names targets samples).map
      (fun r => r.total_idle_pct)).sum = 100 :=
  buildTable_pct_sum cfg names targets samples h1 h2 hS

/-- Witness for C9 at the one-row table with sample 0. -/
theorem idle_share_pct_sum_100_witness :
    ((buildTable mainConfig ["A"] [1] [0]).map
      (fun r => r.total_idle_pct)).sum = 100 :=
  idle_share_pct_sum_100 mainConfig ["A"] [1] [0] (by simp) rfl rfl
    (by rw [singleton_zero_idle_sum]; norm_num)

lemma names_main_length : names_main.length = 100 := by
  simp [names_main, generate_toy_story_machine_names_main]

/-- Claim C10: under the built-in configuration of `src/main.py`
(100 entities, idle floor 50, nonnegative Pareto samples, positive scale
factor) the global idle-hours sum is at least 100 * 50 and in particular
strictly positive, so the `total_idle_pct` division never divides by
zero. -/
theorem builtin_idle_sum_positive (targets samples : List ℚ)
    (h1 : targets.length = 100) (h2 : samples.length = 100)
    (hsamp : ∀ s ∈ samples, 0 ≤ s) :
    100 * 50 ≤ ((buildTable mainConfig names_main targets samples).map
      (fun r => r.idle_hours_year)).sum ∧
    0 < ((buildTable mainConfig names_main targets samples).map
      (fun r => r.idle_hours_year)).sum := by
  have hmap := rowsAux_map_idle mainConfig
    ((samples.map (idleHours mainConfig)).sum) names_main targets samples
    (by rw [names_main_length, h1]) (by rw [names_main_length, h2])
  unfold buildTable
  rw [hmap]
  have hbound : ∀ z ∈ samples.map (idleHours mainConfig), (50 : ℤ) ≤ z := by
    intro z hz
    obtain ⟨s, hs, rfl⟩ := List.mem_map.mp hz
    have h := min_idle_le_idleHours mainConfig s
      (by norm_num [mainConfig]) (hsamp s hs)
    simpa [mainConfig] using h
  have hsum := List.card_nsmul_le_sum
    (samples.map (idleHours mainConfig)) 50 hbound
  rw [List.length_map, h2] at hsum
  have h5000 : (100 : ℕ) • (50 : ℤ) = 5000 := by norm_num
  rw [h5000] at hsum
  constructor
  · omega
  · omega

/-- Witness for C10 at 100 identical rows with Pareto sample 0. -/
theorem builtin_idle_sum_positive_witness :
    100 * 50 ≤ ((buildTable mainConfig names_main
      (List.replicate 100 (3/10)) (List.replicate 100 0)).map
      (fun r => r.idle_hours_year)).sum ∧
    0 < ((buildTable mainConfig names_main
      (List.replicate 100 (3/10)) (List.replicate 100 0)).map
      (fun r => r.idle_hours_year)).sum :=
  builtin_idle_sum_positive (List.replicate 100 (3/10))
    (List.replicate 100 0) (by simp) (by simp)
    (fun s hs => by rw [List.eq_of_mem_replicate hs])

/-- Configuration with idle floor 0 and idle scale 0: the pipeline's
formulas with constants that make every sampled idle-hours value 0, used
to reach the zero global idle-hours sum the spec talks about. -/
def zeroConfig : Config :=
  { total_hours := 8760, min_idle_hours := 0, scale_factor := 0 }

lemma replicate_zero_idle_sum :
    ((List.replicate 100 (0 : ℚ)).map (idleHours zeroConfig)).sum = 0 := by
  rw [List.map_replicate, idleHours_sample_zero]
  simp [zeroConfig]

lemma zero_table_length :
    (buildTable zeroConfig names_main (List.replicate 100 (1/2))
      (List.replicate 100 0)).length = 100 := by
  unfold buildTable
  rw [rowsAux_length zeroConfig _ names_main _ _ (by simp [names_main_length])
    (by simp [names_main_length])]
  exact names_main_length

/-- Counterexample for C3: a run of the pipeline formulas whose global
idle-hours sum is zero on which the program does not abort: the share
division is performed and the run completes normally (`isOk`).  In the
real program the unguarded pandas division produces non-finite floats
instead of a fatal error. -/
theorem zero_idle_sum_no_abort :
    ((buildTable zeroConfig names_main (List.replicate 100 (1/2))
        (List.replicate 100 0)).map (fun r => r.idle_hours_year)).sum = 0 ∧
    (runPipeline zeroConfig names_main (List.replicate 100 (1/2))
        (List.replicate 100 0)).isOk = true := by
  constructor
  · unfold buildTable
    rw [rowsAux_map_idle zeroConfig _ names_main _ _
      (by simp [names_main_length]) (by simp [names_main_length])]
    exact replicate_zero_idle_sum
  · have hsorted : (sortRowsDescBy (fun r => r.utilization_rate_normalized)
        (buildTable zeroConfig names_main (List.replicate 100 (1/2))
          (List.replicate 100 0))).length = 100 := by
      rw [(sortRowsDescBy_perm _ _).length_eq]
      exact zero_table_length
    have hview : heatmapView (buildTable zeroConfig names_main
        (List.replicate 100 (1/2)) (List.replicate 100 0)) =
        Except.ok (reshapeRows grid_size (heatmapSortedVals
          (buildTable zeroConfig names_main (List.replicate 100 (1/2))
            (List.replicate 100 0)))) := by
      unfold heatmapView
      rw [if_neg]
      rw [hsorted]
      decide
    simp only [runPipeline]
    rw [hview]
    rfl

lemma heatmapView_error_msg (t : List Row) (e : String)
    (h : heatmapView t = Except.error e) : e = heatmap_error_message := by
  unfold heatmapView at h
  split at h
  · injection h with h
    exact h.symm
  · exact Except.noConfusion h

/-- Claim C3 (amended): the percentage-share division of `src/main.py` is
not guarded: when the global idle-hours sum is zero the pipeline still
produces one row per entity instead of aborting (the real program's pandas
division yields non-finite floats), and the only fatal error the pipeline
can raise is the heatmap grid-size `ValueError`. -/
theorem idle_share_division_unguarded (cfg : Config) (names : List String)
    (targets samples : List ℚ) (h1 : names.length = targets.length)
    (h2 : names.length = samples.length) :
    ((samples.map (idleHours cfg)).sum = 0 →
      (buildTable cfg names targets samples).length = names.length) ∧
    ∀ e, runPipeline cfg names targets samples = Except.error e →
      e = heatmap_error_message := by
  constructor
  · intro _
    unfold buildTable
    exact rowsAux_length cfg _ names targets samples h1 h2
  · intro e he
    simp only [runPipeline] at he
    cases hv : heatmapView (buildTable cfg names targets samples) with
    | error e' =>
      rw [hv] at he
      injection he with he
      rw [← he]
      exact heatmapView_error_msg _ e' hv
    | ok g =>
      rw [hv] at he
      exact Except.noConfusion he

/-- Witness for the amended C3 at the zero-idle-sum run. -/
theorem idle_share_division_unguarded_witness :
    (buildTable zeroConfig names_main (List.replicate 100 (1/2))
      (List.replicate 100 0)).length = names_main.length :=
  (idle_share_division_unguarded zeroConfig names_main
    (List.replicate 100 (1/2)) (List.replicate 100 0)
    (by simp [names_main_length]) (by simp [names_main_length])).1
    replicate_zero_idle_sum

/-- Claim C1 is false of the code: `random.seed(42)` seeds only Python's
`random` module, while the idle-hours sampling uses NumPy's separate,
never-seeded global generator.  Holding the seed (hence the placeholder
names and the `random.choices` target rates) fixed and varying only the
NumPy Pareto draws changes the output table, so the output is not a
function of the seed: here two NumPy streams that differ in the first draw
give first-row idle hours 50 and 8050 respectively. -/
theorem idle_hours_not_reproducible_from_seed :
    ((buildTable mainConfig names_main (List.replicate 100 (3/10))
        (List.replicate 100 0)).map (fun r => r.idle_hours_year)) =
      List.replicate 100 50 ∧
    ((buildTable mainConfig names_main (List.replicate 100 (3/10))
        ((1 : ℚ) :: List.replicate 99 0)).map (fun r => r.idle_hours_year)) =
      8050 :: List.replicate 99 50 ∧
    buildTable mainConfig names_main (List.replicate 100 (3/10))
        (List.replicate 100 0) ≠
      buildTable mainConfig names_main (List.replicate 100 (3/10))
        ((1 : ℚ) :: List.replicate 99 0) := by
  have hA : ((buildTable mainConfig names_main (List.replicate 100 (3/10))
      (List.replicate 100 0)).map (fun r => r.idle_hours_year)) =
      List.replicate 100 50 := by
    unfold buildTable
    rw [rowsAux_map_idle mainConfig _ names_main _ _
      (by simp [names_main_length]) (by simp [names_main_length])]
    rw [List.map_replicate, idleHours_sample_zero]
    simp [mainConfig]
  have hB : ((buildTable mainConfig names_main (List.replicate 100 (3/10))
      ((1 : ℚ) :: List.replicate 99 0)).map (fun r => r.idle_hours_year)) =
      8050 :: List.replicate 99 50 := by
    unfold buildTable
    rw [rowsAux_map_idle mainConfig _ names_main _ _
      (by simp [names_main_length]) (by simp [names_main_length])]
    rw [List.map_cons, idleHours_main_one, List.map_replicate,
      idleHours_sample_zero]
    simp [mainConfig]
  refine ⟨hA, hB, ?_⟩
  intro h
  have hmaps := congrArg (List.map (fun r => r.idle_hours_year)) h
  rw [hA, hB] at hmaps
  exact absurd hmaps (by decide)

/-- Claim C5: for the heatmap view the rows sorted descending by
`utilization_rate_normalized` are laid row-major into a
`grid_size × grid_size` grid, and when the row count differs from
`grid_size²` the designated fatal error is raised with a message
containing the required count (100). -/
theorem heatmap_grid_spec (t : List Row) :
    (t.length = grid_size * grid_size →
      heatmapView t = Except.ok (reshapeRows grid_size (heatmapSortedVals t)) ∧
      (reshapeRows grid_size (heatmapSortedVals t)).length = grid_size ∧
      (∀ row ∈ reshapeRows grid_size (heatmapSortedVals t),
        row.length = grid_size) ∧
      (reshapeRows grid_size (heatmapSortedVals t)).flatten =
        heatmapSortedVals t ∧
      List.Chain' (fun a b => b ≤ a)
        ((reshapeRows grid_size (heatmapSortedVals t)).flatten) ∧
      List.Perm ((reshapeRows grid_size (heatmapSortedVals t)).flatten)
        (t.map (fun r => r.utilization_rate_normalized))) ∧
    (t.length ≠ grid_size * grid_size →
      heatmapView t = Except.error heatmap_error_message ∧
      "100".data <:+: heatmap_error_message.data) := by
  have hsortlen : (sortRowsDescBy (fun r => r.utilization_rate_normalized)
      t).length = t.length := (sortRowsDescBy_perm _ t).length_eq
  have hvalslen : (heatmapSortedVals t).length = t.length := by
    unfold heatmapSortedVals
    rw [List.length_map, hsortlen]
  have hflat : (reshapeRows grid_size (heatmapSortedVals t)).flatten =
      heatmapSortedVals t := flatten_reshapeRows grid_size (by decide) _
  constructor
  · intro hlen
    have hok : heatmapView t =
        Except.ok (reshapeRows grid_size (heatmapSortedVals t)) := by
      unfold heatmapView
      rw [if_neg]
      rw [hsortlen]
      simp [hlen]
    refine ⟨hok, ?_, ?_, hflat, ?_, ?_⟩
    · exact reshapeRows_length grid_size (by decide) grid_size _
        (by rw [hvalslen, hlen])
    · exact mem_reshapeRows_length grid_size (by decide) grid_size _
        (by rw [hvalslen, hlen])
    · rw [hflat]
      unfold heatmapSortedVals
      exact List.Pairwise.chain'
        (List.pairwise_map.mpr (sortRowsDescBy_pairwise _ t))
    · rw [hflat]
      unfold heatmapSortedVals
      exact (sortRowsDescBy_perm _ t).map _
  · intro hlen
    refine ⟨?_, by decide⟩
    unfold heatmapView
    rw [if_pos]
    rw [hsortlen]
    exact hlen

/-- Witness for C5: a 100-row table takes the ok branch, the empty table
raises the designated error. -/
theorem heatmap_grid_spec_witness :
    (heatmapView (List.replicate 100 (mkRow mainConfig 50 "A" 1 0))).isOk =
      true ∧
    heatmapView ([] : List Row) = Except.error heatmap_error_message := by
  constructor
  · have h := ((heatmap_grid_spec
      (List.replicate 100 (mkRow mainConfig 50 "A" 1 0))).1
      (by rw [List.length_replicate]; decide)).1
    rw [h]
    rfl
  · exact ((heatmap_grid_spec ([] : List Row)).2 (by decide)).1

lemma idleHours_main_ge (s : ℚ) (hs : 0 ≤ s) :
    (50 : ℤ) ≤ idleHours mainConfig s := by
  have h := min_idle_le_idleHours mainConfig s (by norm_num [mainConfig]) hs
  simpa [mainConfig] using h

lemma buildTable_pct_nonneg (names : List String) (targets samples : List ℚ)
    (hsamp : ∀ s ∈ samples, 0 ≤ s) :
    ∀ r ∈ buildTable mainConfig names targets samples,
      0 ≤ r.total_idle_pct := by
  intro r hr
  obtain ⟨n, t, s, _, hs, he⟩ :=
    mem_rowsAux mainConfig _ names targets samples r hr
  subst he
  have hidle : (0 : ℤ) ≤ idleHours mainConfig s :=
    le_trans (by norm_num) (idleHours_main_ge s (hsamp s hs))
  have hS : (0 : ℤ) ≤ (samples.map (idleHours mainConfig)).sum := by
    apply List.sum_nonneg
    intro z hz
    obtain ⟨x, hx, rfl⟩ := List.mem_map.mp hz
    exact le_trans (by norm_num) (idleHours_main_ge x (hsamp x hx))
  exact mul_nonneg (div_nonneg (by exact_mod_cast hidle)
    (by exact_mod_cast hS)) (by norm_num)

lemma main_idle_sum_pos (samples : List ℚ) (hne : samples ≠ [])
    (hsamp : ∀ s ∈ samples, 0 ≤ s) :
    0 < (samples.map (idleHours mainConfig)).sum := by
  cases samples with
  | nil => exact absurd rfl hne
  | cons s ss =>
    rw [List.map_cons, List.sum_cons]
    have h1 := idleHours_main_ge s (hsamp s (List.mem_cons_self _ _))
    have h2 : (0 : ℤ) ≤ (ss.map (idleHours mainConfig)).sum := by
      apply List.sum_nonneg
      intro z hz
      obtain ⟨x, hx, rfl⟩ := List.mem_map.mp hz
      exact le_trans (by norm_num)
        (idleHours_main_ge x (hsamp x (List.mem_cons_of_mem _ hx)))
    omega

/-- Claim C8: in the Pareto derived view of the program (rows sorted
descending by `under_utilized_rate_normalized`), the `cumulative_percent`
series is non-decreasing from first to last row and its last value is
exactly 100 in the rational model (within floating-point tolerance in the
program). -/
theorem cumulative_percent_monotone_to_100 (names : List String)
    (targets samples : List ℚ) (hne : names ≠ [])
    (h1 : names.length = targets.length) (h2 : names.length = samples.length)
    (hsamp : ∀ s ∈ samples, 0 ≤ s) :
    List.Chain' (· ≤ ·)
      (cumulative_percent (buildTable mainConfig names targets samples)) ∧
    (cumulative_percent
      (buildTable mainConfig names targets samples)).getLast? =
      some 100 := by
  have hsne : samples ≠ [] := by
    intro h
    subst h
    exact hne (List.length_eq_zero.mp (by simpa using h2))
  have hSpos := main_idle_sum_pos samples hsne hsamp
  have hsum100 : ((buildTable mainConfig names targets samples).map
      (fun r => r.total_idle_pct)).sum = 100 :=
    buildTable_pct_sum mainConfig names targets samples h1 h2
      (ne_of_gt hSpos)
  have hperm : List.Perm
      ((sortRowsDescBy (fun r => r.under_utilized_rate_normalized)
        (buildTable mainConfig names targets samples)).map
        (fun r => r.total_idle_pct))
      ((buildTable mainConfig names targets samples).map
        (fun r => r.total_idle_pct)) :=
    (sortRowsDescBy_perm _ _).map _
  have hsum' : ((sortRowsDescBy (fun r => r.under_utilized_rate_normalized)
      (buildTable mainConfig names targets samples)).map
      (fun r => r.total_idle_pct)).sum = 100 := hperm.sum_eq.trans hsum100
  have hnn : ∀ x ∈ (sortRowsDescBy
      (fun r => r.under_utilized_rate_normalized)
      (buildTable mainConfig names targets samples)).map
      (fun r => r.total_idle_pct), 0 ≤ x := by
    intro x hx
    obtain ⟨r, hr, rfl⟩ := List.mem_map.mp hx
    exact buildTable_pct_nonneg names targets samples hsamp r
      ((sortRowsDescBy_perm _ _).mem_iff.mp hr)
  have hpne : (sortRowsDescBy (fun r => r.under_utilized_rate_normalized)
      (buildTable mainConfig names targets samples)).map
      (fun r => r.total_idle_pct) ≠ [] := by
    intro h
    have hlen := congrArg List.length h
    rw [List.length_map, (sortRowsDescBy_perm _ _).length_eq] at hlen
    unfold buildTable at hlen
    rw [rowsAux_length mainConfig _ names targets samples h1 h2] at hlen
    exact hne (List.length_eq_zero.mp (by simpa using hlen))
  have hid : (fun c : ℚ => c / 100 * 100) = fun c : ℚ => c :=
    funext fun c => by field_simp
  simp only [cumulative_percent]
  rw [hsum', hid, List.map_id']
  constructor
  · exact cumsumFrom_chain _ 0 hnn
  · unfold cumsum
    rw [cumsumFrom_getLast _ 0 hpne, hsum']
    norm_num

/-- Witness for C8 at the one-row table with sample 0. -/
theorem cumulative_percent_monotone_to_100_witness :
    List.Chain' (· ≤ ·)
      (cumulative_percent (buildTable mainConfig ["A"] [1] [0])) ∧
    (cumulative_percent (buildTable mainConfig ["A"] [1] [0])).getLast? =
      some 100 :=
  cumulative_percent_monotone_to_100 ["A"] [1] [0] (by simp) rfl rfl (by simp)
